import Mathlib

/-!
Shallow embedding of the note-taking widget in src/project/src/App.tsx.

The component state consists of the note collection (useState notes), the
active note (useState activeNote), the editing flag (useState isEditing),
and the durable storage slot named "notes" in local storage. The useEffect
with dependency [notes] serializes the full collection into the slot
whenever the collection changes, including once on mount.

The clock (Date.now and the Date constructor) is modelled as explicit
natural-number parameters: milliseconds since the epoch, which is exactly
the value a JS Date carries. The storage slot is modelled at the level of
the structured value that JSON round-trips: a list of records whose
createdAt field has become a string-encoded timestamp, which is what
JSON.parse actually hands back (it does not revive Date objects).
-/

namespace NotesApp

/-- A note record, matching the Note interface of App.tsx; createdAt models
the JS Date value as integer milliseconds since the epoch. -/
structure Note where
  id : String
  title : String
  content : String
  createdAt : Nat
deriving DecidableEq

/-- A note as it sits in the storage slot: the structured value produced by
serialization, in which the creation date has become a string-encoded
timestamp. -/
structure StoredNote where
  id : String
  title : String
  content : String
  createdAt : String
deriving DecidableEq

/-- Modelled from the spec: the serialization of the createdAt field.
The code serializes via JSON.stringify, whose Date handling lives in the
runtime, not in src/; the spec describes the result as "createdAt as a
string-encoded timestamp". We model it as the decimal digit string of the
millisecond value, which is injective at millisecond precision. -/
def encodeTimestamp (n : Nat) : String :=
  ⟨if n = 0 then ['0'] else (Nat.digits 10 n).reverse.map Nat.digitChar⟩

/-- Modelled from the spec: reading a string-encoded timestamp back as a
millisecond value (the runtime revives such strings through the Date
constructor). Fails on strings that are not plain digit sequences. -/
def decodeTimestamp (s : String) : Option Nat :=
  if s.data ≠ [] ∧ ∀ c ∈ s.data, c.isDigit then
    some (Nat.ofDigits 10 ((s.data.map fun c => c.toNat - 48).reverse))
  else none

theorem digitChar_isDigit : ∀ d : Nat, d < 10 → (Nat.digitChar d).isDigit = true := by
  decide

theorem digitChar_val : ∀ d : Nat, d < 10 → (Nat.digitChar d).toNat - 48 = d := by
  decide

theorem decodeTimestamp_encodeTimestamp (n : Nat) :
    decodeTimestamp (encodeTimestamp n) = some n := by
  rcases Nat.eq_zero_or_pos n with h0 | hpos
  · subst h0; decide
  · have hne : Nat.digits 10 n ≠ [] :=
      Nat.digits_ne_nil_iff_ne_zero.mpr (Nat.pos_iff_ne_zero.mp hpos)
    have hdata : (encodeTimestamp n).data = (Nat.digits 10 n).reverse.map Nat.digitChar := by
      simp [encodeTimestamp, Nat.pos_iff_ne_zero.mp hpos]
    have hlt : ∀ d ∈ Nat.digits 10 n, d < 10 := fun d hd =>
      Nat.digits_lt_base (by decide) hd
    have hcond : (encodeTimestamp n).data ≠ [] ∧
        ∀ c ∈ (encodeTimestamp n).data, c.isDigit := by
      constructor
      · rw [hdata]
        simp [hne]
      · intro c hc
        rw [hdata] at hc
        obtain ⟨d, hd, rfl⟩ := List.mem_map.mp hc
        exact digitChar_isDigit d (hlt d (List.mem_reverse.mp hd))
    rw [decodeTimestamp, if_pos hcond, hdata]
    have hmap : ((Nat.digits 10 n).reverse.map Nat.digitChar).map (fun c => c.toNat - 48) =
        (Nat.digits 10 n).reverse := by
      rw [List.map_map]
      have : ∀ d ∈ (Nat.digits 10 n).reverse, ((fun c : Char => c.toNat - 48) ∘ Nat.digitChar) d = id d := by
        intro d hd
        exact digitChar_val d (hlt d (List.mem_reverse.mp hd))
      rw [List.map_congr_left this, List.map_id]
    rw [hmap, List.reverse_reverse, Nat.ofDigits_digits]

/-- Serialization of one note into its stored form: id, title and content
are strings already and survive the JSON round trip unchanged; createdAt is
string-encoded. -/
def serializeNote (n : Note) : StoredNote :=
  { id := n.id, title := n.title, content := n.content,
    createdAt := encodeTimestamp n.createdAt }

/-- Serialization of the whole collection, as written to the storage slot by
the useEffect: JSON.stringify of the notes array, at the structured level. -/
def serializeNotes (ns : List Note) : List StoredNote :=
  ns.map serializeNote

/-- Reading the storage slot, mirroring the useState initializer:
savedNotes ? JSON.parse(savedNotes) : []. -/
def loadSlot (saved : Option (List StoredNote)) : List StoredNote :=
  saved.getD []

/-- The full component state: the three useState hooks plus the durable
storage slot written by the useEffect. -/
structure AppState where
  notes : List Note
  activeNote : Option Note
  isEditing : Bool
  storage : Option (List StoredNote)
deriving DecidableEq

/-- The note constructed by createNewNote: id is Date.now().toString(),
title and content are the defaults, createdAt is new Date(). The two clock
reads are separate in the source, hence two parameters. -/
def newNoteOf (idMs createdMs : Nat) : Note :=
  { id := Nat.repr idMs, title := "New Note", content := "", createdAt := createdMs }

/-- createNewNote from App.tsx: prepend the fresh note, make it active,
enter edit mode. -/
def createNewNote (idMs createdMs : Nat) (s : AppState) : AppState :=
  { s with notes := newNoteOf idMs createdMs :: s.notes,
           activeNote := some (newNoteOf idMs createdMs),
           isEditing := true }

/-- updateNote from App.tsx: map over the collection replacing every entry
whose id equals the id of the updated note, make the updated note active,
leave edit mode. -/
def updateNote (updatedNote : Note) (s : AppState) : AppState :=
  { s with
    notes := s.notes.map fun note => if note.id = updatedNote.id then updatedNote else note,
    activeNote := some updatedNote,
    isEditing := false }

/-- deleteNote from App.tsx: filter the entry out; if the deleted id is the
active id, select the first remaining entry (or none) and leave edit mode. -/
def deleteNote (id : String) (s : AppState) : AppState :=
  let filteredNotes := s.notes.filter fun note => note.id != id
  match s.activeNote with
  | some a =>
      if a.id = id then
        { s with notes := filteredNotes, activeNote := filteredNotes.head?,
                 isEditing := false }
      else
        { s with notes := filteredNotes }
  | none => { s with notes := filteredNotes }

/-- Clicking a list item: setActiveNote(note); setIsEditing(false). -/
def selectNote (n : Note) (s : AppState) : AppState :=
  { s with activeNote := some n, isEditing := false }

/-- Clicking the Edit button, which is rendered only when a note is
active: setIsEditing(true). -/
def beginEdit (s : AppState) : AppState :=
  match s.activeNote with
  | some _ => { s with isEditing := true }
  | none => s

/-- Typing in the title input, rendered only while a note is active and
edit mode is on: setActiveNote with the title replaced. -/
def editDraftTitle (v : String) (s : AppState) : AppState :=
  match s.activeNote, s.isEditing with
  | some a, true => { s with activeNote := some { a with title := v } }
  | _, _ => s

/-- Typing in the content textarea, rendered only while a note is active
and edit mode is on: setActiveNote with the content replaced. -/
def editDraftContent (v : String) (s : AppState) : AppState :=
  match s.activeNote, s.isEditing with
  | some a, true => { s with activeNote := some { a with content := v } }
  | _, _ => s

/-- Writing the serialized collection into the storage slot: the useEffect
body localStorage.setItem, which runs after every change of notes. -/
def persist (s : AppState) : AppState :=
  { s with storage := some (serializeNotes s.notes) }

/-- Clicking the Save button, rendered only while a note is active and edit
mode is on: updateNote(activeNote); its setNotes call triggers the
persistence effect. -/
def saveDraft (s : AppState) : AppState :=
  match s.activeNote, s.isEditing with
  | some a, true => persist (updateNote a s)
  | _, _ => s

/-- Clicking the Cancel button, rendered only while a note is active and
edit mode is on: re-read the committed entry by id (none if it is gone) and
leave edit mode. -/
def cancelEdit (s : AppState) : AppState :=
  match s.activeNote, s.isEditing with
  | some a, true =>
      { s with activeNote := s.notes.find? fun note => note.id == a.id,
               isEditing := false }
  | _, _ => s

/-- The user-visible operations of the widget. The create action carries
the two clock readings of the handler; select carries the clicked note. -/
inductive Action where
  | create (idMs createdMs : Nat)
  | select (n : Note)
  | edit
  | editTitle (v : String)
  | editContent (v : String)
  | save
  | cancel
  | delete (id : String)

/-- One user interaction. Handlers that call setNotes (create, save,
delete) are followed by the persistence effect, whose dependency array is
[notes]; the others never change the collection and trigger no write.
Select is only available for notes rendered in the list. -/
def step (a : Action) (s : AppState) : AppState :=
  match a with
  | .create idMs createdMs => persist (createNewNote idMs createdMs s)
  | .select n => if n ∈ s.notes then selectNote n s else s
  | .edit => beginEdit s
  | .editTitle v => editDraftTitle v s
  | .editContent v => editDraftContent v s
  | .save => saveDraft s
  | .cancel => cancelEdit s
  | .delete id => persist (deleteNote id s)

/-- The state right after mount: the collection comes from parsing the
storage slot (modelled as the resulting list), nothing is active, edit mode
is off, and the mount run of the useEffect has written the collection back
to the slot (the normalizing write). -/
def initState (initialNotes : List Note) : AppState :=
  persist { notes := initialNotes, activeNote := none, isEditing := false, storage := none }

/-- States reachable from some mount by user interactions. -/
inductive Reachable : AppState → Prop where
  | init (initialNotes : List Note) : Reachable (initState initialNotes)
  | next (a : Action) {s : AppState} : Reachable s → Reachable (step a s)

/-- A sequence of consecutive create clicks, each with its pair of clock
readings, applied left to right. -/
def createMany (ts : List (Nat × Nat)) (s : AppState) : AppState :=
  ts.foldl (fun s t => step (.create t.1 t.2) s) s

/-- A draft edit: one keystroke in the title input or the content
textarea. -/
inductive DraftEdit where
  | title (v : String)
  | content (v : String)

/-- The action a draft edit dispatches. -/
def DraftEdit.toAction : DraftEdit → Action
  | .title v => .editTitle v
  | .content v => .editContent v

/-- A sequence of draft edits applied left to right. -/
def applyDraftEdits (es : List DraftEdit) (s : AppState) : AppState :=
  es.foldl (fun s e => step e.toAction s) s

/-! ### Frame lemmas: handlers that never touch the collection or the slot -/

theorem beginEdit_notes (s : AppState) : (beginEdit s).notes = s.notes := by
  obtain ⟨ns, act, ed, st⟩ := s
  cases act <;> rfl

theorem beginEdit_storage (s : AppState) : (beginEdit s).storage = s.storage := by
  obtain ⟨ns, act, ed, st⟩ := s
  cases act <;> rfl

theorem editDraftTitle_notes (v : String) (s : AppState) :
    (editDraftTitle v s).notes = s.notes := by
  obtain ⟨ns, act, ed, st⟩ := s
  cases act <;> cases ed <;> rfl

theorem editDraftTitle_storage (v : String) (s : AppState) :
    (editDraftTitle v s).storage = s.storage := by
  obtain ⟨ns, act, ed, st⟩ := s
  cases act <;> cases ed <;> rfl

theorem editDraftContent_notes (v : String) (s : AppState) :
    (editDraftContent v s).notes = s.notes := by
  obtain ⟨ns, act, ed, st⟩ := s
  cases act <;> cases ed <;> rfl

theorem editDraftContent_storage (v : String) (s : AppState) :
    (editDraftContent v s).storage = s.storage := by
  obtain ⟨ns, act, ed, st⟩ := s
  cases act <;> cases ed <;> rfl

theorem cancelEdit_notes (s : AppState) : (cancelEdit s).notes = s.notes := by
  obtain ⟨ns, act, ed, st⟩ := s
  cases act <;> cases ed <;> rfl

theorem cancelEdit_storage (s : AppState) : (cancelEdit s).storage = s.storage := by
  obtain ⟨ns, act, ed, st⟩ := s
  cases act <;> cases ed <;> rfl

theorem stepSelect_notes (n : Note) (s : AppState) : (step (.select n) s).notes = s.notes := by
  simp only [step]
  split <;> rfl

theorem stepSelect_storage (n : Note) (s : AppState) :
    (step (.select n) s).storage = s.storage := by
  simp only [step]
  split <;> rfl

/-! ### Sample data used by the witness theorems -/

def sampleNoteA : Note := newNoteOf 1 10

def sampleNoteB : Note := newNoteOf 2 20

/-- A state in which sampleNoteB is active and being edited. -/
def sampleEditing : AppState :=
  { notes := [sampleNoteA, sampleNoteB], activeNote := some sampleNoteB,
    isEditing := true, storage := none }

/-- A state in which sampleNoteB is active and merely viewed. -/
def sampleViewing : AppState :=
  { notes := [sampleNoteA, sampleNoteB], activeNote := some sampleNoteB,
    isEditing := false, storage := none }

/-- A state whose active note does not occur in the collection. -/
def sampleDetached : AppState :=
  { notes := [sampleNoteA], activeNote := some sampleNoteB,
    isEditing := true, storage := none }

/-! ### Claim C8 -/

/-- Claim C8: create constructs a note titled "New Note" with empty content
and the current clock reading as creation timestamp, prepends it to the
collection, makes it the active note and turns edit mode on. -/
theorem c8_create_defaults_prepend_edit (s : AppState) (idMs createdMs : Nat) :
    (step (.create idMs createdMs) s).notes = newNoteOf idMs createdMs :: s.notes ∧
    (step (.create idMs createdMs) s).activeNote = some (newNoteOf idMs createdMs) ∧
    (step (.create idMs createdMs) s).isEditing = true ∧
    (newNoteOf idMs createdMs).title = "New Note" ∧
    (newNoteOf idMs createdMs).content = "" ∧
    (newNoteOf idMs createdMs).createdAt = createdMs :=
  ⟨rfl, rfl, rfl, rfl, rfl, rfl⟩

/-! ### Claim C1 -/

theorem createMany_notes (ts : List (Nat × Nat)) (s : AppState) :
    (createMany ts s).notes = (ts.map fun t => newNoteOf t.1 t.2).reverse ++ s.notes := by
  induction ts generalizing s with
  | nil => rfl
  | cons t ts ih =>
      rw [createMany, List.foldl_cons]
      rw [show List.foldl (fun s t => step (.create t.1 t.2) s) (step (.create t.1 t.2) s) ts =
        createMany ts (step (.create t.1 t.2) s) from rfl]
      rw [ih]
      show _ ++ (newNoteOf t.1 t.2 :: s.notes) = _
      simp [List.append_assoc]

/-- Claim C1: a run of consecutive creates prepends each new note, so the
collection reads most-recently-created-first and grows by the number of
creates; and when the clock readings used as ids are fresh (pairwise
distinct and absent from the starting collection, whose own ids are
distinct, per the collection invariant and the fresh-id guarantee of the
spec), all ids of the resulting collection are pairwise distinct. -/
theorem c1_create_many_size_order_distinct (s : AppState) (ts : List (Nat × Nat))
    (hfresh : ((ts.map fun t => Nat.repr t.1) ++ s.notes.map Note.id).Nodup) :
    (createMany ts s).notes = (ts.map fun t => newNoteOf t.1 t.2).reverse ++ s.notes ∧
    (createMany ts s).notes.length = s.notes.length + ts.length ∧
    ((createMany ts s).notes.map Note.id).Nodup := by
  refine ⟨createMany_notes ts s, ?_, ?_⟩
  · rw [createMany_notes]
    simp [Nat.add_comm]
  · rw [createMany_notes]
    have hids : ((ts.map fun t => newNoteOf t.1 t.2).reverse ++ s.notes).map Note.id =
        (ts.map fun t => Nat.repr t.1).reverse ++ s.notes.map Note.id := by
      simp [List.map_reverse, List.map_map, Function.comp, newNoteOf]
    rw [hids]
    rw [List.nodup_append] at hfresh ⊢
    refine ⟨List.nodup_reverse.mpr hfresh.1, hfresh.2.1, ?_⟩
    intro x hx hx2
    exact hfresh.2.2 (List.mem_reverse.mp hx) hx2

/-- Witness for claim C1: two creates on a freshly mounted empty state. -/
theorem c1_create_many_size_order_distinct_witness :
    (createMany [(1, 10), (2, 20)] (initState [])).notes =
        ([(1, 10), (2, 20)].map fun t => newNoteOf t.1 t.2).reverse ++ (initState []).notes ∧
    (createMany [(1, 10), (2, 20)] (initState [])).notes.length =
        (initState []).notes.length + [(1, 10), (2, 20)].length ∧
    ((createMany [(1, 10), (2, 20)] (initState [])).notes.map Note.id).Nodup :=
  c1_create_many_size_order_distinct (initState []) [(1, 10), (2, 20)] (by decide)

/-! ### Claim C2 -/

/-- Claim C2: with a note active and edit mode on, editing the draft title
to x and saving replaces, in place, exactly the collection entries whose id
matches the draft id with the full draft (whose title is x), leaves every
other entry unchanged, and moves to viewing the saved note. -/
theorem c2_save_after_edit_title (s : AppState) (a : Note) (x : String)
    (hact : s.activeNote = some a) (hed : s.isEditing = true)
    (hmem : ∃ n ∈ s.notes, n.id = a.id) :
    (step .save (step (.editTitle x) s)).notes =
        s.notes.map (fun n => if n.id = a.id then { a with title := x } else n) ∧
    (∃ n ∈ (step .save (step (.editTitle x) s)).notes, n.id = a.id ∧ n.title = x) ∧
    (∀ n ∈ s.notes, n.id ≠ a.id → n ∈ (step .save (step (.editTitle x) s)).notes) ∧
    (step .save (step (.editTitle x) s)).activeNote = some { a with title := x } ∧
    (step .save (step (.editTitle x) s)).isEditing = false := by
  obtain ⟨ns, act, ed, st⟩ := s
  have hact2 : act = some a := hact
  have hed2 : ed = true := hed
  subst hact2
  subst hed2
  refine ⟨rfl, ?_, ?_, rfl, rfl⟩
  · obtain ⟨n, hn, hid⟩ := hmem
    refine ⟨{ a with title := x }, ?_, rfl, rfl⟩
    show { a with title := x } ∈
        ns.map (fun m : Note => if m.id = a.id then { a with title := x } else m)
    rw [List.mem_map]
    exact ⟨n, hn, if_pos hid⟩
  · intro n hn hne
    show n ∈ ns.map (fun m : Note => if m.id = a.id then { a with title := x } else m)
    rw [List.mem_map]
    exact ⟨n, hn, if_neg hne⟩

/-- Witness for claim C2: saving after retitling the active note of a
two-note state. -/
theorem c2_save_after_edit_title_witness :
    (step .save (step (.editTitle "X") sampleEditing)).notes =
        sampleEditing.notes.map
          (fun n => if n.id = sampleNoteB.id then { sampleNoteB with title := "X" } else n) ∧
    (∃ n ∈ (step .save (step (.editTitle "X") sampleEditing)).notes,
        n.id = sampleNoteB.id ∧ n.title = "X") ∧
    (∀ n ∈ sampleEditing.notes, n.id ≠ sampleNoteB.id →
        n ∈ (step .save (step (.editTitle "X") sampleEditing)).notes) ∧
    (step .save (step (.editTitle "X") sampleEditing)).activeNote =
        some { sampleNoteB with title := "X" } ∧
    (step .save (step (.editTitle "X") sampleEditing)).isEditing = false :=
  c2_save_after_edit_title sampleEditing sampleNoteB "X" rfl rfl ⟨sampleNoteB, by decide, rfl⟩

/-! ### Claim C3 -/

theorem applyDraftEdits_notes (es : List DraftEdit) (s : AppState) :
    (applyDraftEdits es s).notes = s.notes := by
  induction es generalizing s with
  | nil => rfl
  | cons e es ih =>
      rw [applyDraftEdits, List.foldl_cons]
      rw [show List.foldl (fun s e => step e.toAction s) (step e.toAction s) es =
        applyDraftEdits es (step e.toAction s) from rfl]
      rw [ih]
      cases e with
      | title v => exact editDraftTitle_notes v s
      | content v => exact editDraftContent_notes v s

/-- Claim C3: from a state with an active note, entering edit mode,
performing any sequence of draft edits on title or content, and cancelling
leaves the committed collection exactly as it was before edit mode was
entered; the draft edits only ever touch the active-note copy. -/
theorem c3_cancel_preserves_collection (s : AppState) (a : Note) (es : List DraftEdit)
    (_hact : s.activeNote = some a) :
    (step .cancel (applyDraftEdits es (step .edit s))).notes = s.notes :=
  calc (step .cancel (applyDraftEdits es (step .edit s))).notes
      = (applyDraftEdits es (step .edit s)).notes := cancelEdit_notes _
    _ = (step .edit s).notes := applyDraftEdits_notes _ _
    _ = s.notes := beginEdit_notes _

/-- Witness for claim C3: a title edit and a content edit between entering
edit mode and cancelling, from a concrete viewing state. -/
theorem c3_cancel_preserves_collection_witness :
    (step .cancel (applyDraftEdits [DraftEdit.title "T", DraftEdit.content "C"]
        (step .edit sampleViewing))).notes = sampleViewing.notes :=
  c3_cancel_preserves_collection sampleViewing sampleNoteB
    [DraftEdit.title "T", DraftEdit.content "C"] rfl

/-! ### Claim C4 -/

/-- Claim C4: deleting the active note removes it from the collection; if
entries remain, the first remaining entry becomes the active note and edit
mode is exited, and if none remain the state moves to no selection. -/
theorem c4_delete_active (s : AppState) (a : Note) (hact : s.activeNote = some a) :
    (step (.delete a.id) s).notes = (s.notes.filter fun n => n.id != a.id) ∧
    (step (.delete a.id) s).isEditing = false ∧
    (step (.delete a.id) s).activeNote = (s.notes.filter fun n => n.id != a.id).head? ∧
    ((s.notes.filter fun n => n.id != a.id) = [] →
        (step (.delete a.id) s).activeNote = none) ∧
    (∀ m l, (s.notes.filter fun n => n.id != a.id) = m :: l →
        (step (.delete a.id) s).activeNote = some m) := by
  obtain ⟨ns, act, ed, st⟩ := s
  have hact2 : act = some a := hact
  subst hact2
  have hred : step (.delete a.id) (⟨ns, some a, ed, st⟩ : AppState) =
      ⟨ns.filter fun n => n.id != a.id, (ns.filter fun n => n.id != a.id).head?, false,
       some (serializeNotes (ns.filter fun n => n.id != a.id))⟩ := by
    simp [step, deleteNote, persist]
  rw [hred]
  refine ⟨rfl, rfl, rfl, ?_, ?_⟩
  · intro h
    show (ns.filter fun n => n.id != a.id).head? = none
    rw [h]
    rfl
  · intro m l h
    show (ns.filter fun n => n.id != a.id).head? = some m
    rw [h]
    rfl

/-- Witness for claim C4: deleting the active note of a two-note state
selects the remaining note and exits edit mode. -/
theorem c4_delete_active_witness :
    (step (.delete sampleNoteB.id) sampleEditing).notes =
        (sampleEditing.notes.filter fun n => n.id != sampleNoteB.id) ∧
    (step (.delete sampleNoteB.id) sampleEditing).isEditing = false ∧
    (step (.delete sampleNoteB.id) sampleEditing).activeNote =
        (sampleEditing.notes.filter fun n => n.id != sampleNoteB.id).head? ∧
    ((sampleEditing.notes.filter fun n => n.id != sampleNoteB.id) = [] →
        (step (.delete sampleNoteB.id) sampleEditing).activeNote = none) ∧
    (∀ m l, (sampleEditing.notes.filter fun n => n.id != sampleNoteB.id) = m :: l →
        (step (.delete sampleNoteB.id) sampleEditing).activeNote = some m) :=
  c4_delete_active sampleEditing sampleNoteB rfl

/-! ### Claim C5 -/

/-- Claim C5: deleting an id that is not the id of the active note, or
deleting with no active note at all, only filters the collection; the
active selection and the editing flag are untouched. -/
theorem c5_delete_non_active (s : AppState) (id : String)
    (hne : ∀ a, s.activeNote = some a → a.id ≠ id) :
    (step (.delete id) s).notes = (s.notes.filter fun n => n.id != id) ∧
    (step (.delete id) s).activeNote = s.activeNote ∧
    (step (.delete id) s).isEditing = s.isEditing := by
  obtain ⟨ns, act, ed, st⟩ := s
  cases act with
  | none => exact ⟨rfl, rfl, rfl⟩
  | some a =>
      have hne2 : a.id ≠ id := hne a rfl
      have hred : step (.delete id) (⟨ns, some a, ed, st⟩ : AppState) =
          ⟨ns.filter fun n => n.id != id, some a, ed,
           some (serializeNotes (ns.filter fun n => n.id != id))⟩ := by
        simp [step, deleteNote, persist, hne2]
      rw [hred]
      exact ⟨rfl, rfl, rfl⟩

/-- Witness for claim C5: deleting the non-active first note of a two-note
state while the second is being edited. -/
theorem c5_delete_non_active_witness :
    (step (.delete sampleNoteA.id) sampleEditing).notes =
        (sampleEditing.notes.filter fun n => n.id != sampleNoteA.id) ∧
    (step (.delete sampleNoteA.id) sampleEditing).activeNote = sampleEditing.activeNote ∧
    (step (.delete sampleNoteA.id) sampleEditing).isEditing = sampleEditing.isEditing :=
  c5_delete_non_active sampleEditing sampleNoteA.id
    (fun a ha => by injection ha with h; rw [← h]; decide)

/-! ### Claim C10 -/

/-- Claim C10: saving a draft whose id occurs nowhere in the collection
leaves the collection entirely unchanged, in particular nothing is
inserted; the draft merely becomes the active note and edit mode ends. -/
theorem c10_save_missing_id_no_insert (s : AppState) (a : Note)
    (hact : s.activeNote = some a) (hed : s.isEditing = true)
    (hmiss : ∀ n ∈ s.notes, n.id ≠ a.id) :
    (step .save s).notes = s.notes ∧
    (step .save s).activeNote = some a ∧
    (step .save s).isEditing = false := by
  obtain ⟨ns, act, ed, st⟩ := s
  have hact2 : act = some a := hact
  have hed2 : ed = true := hed
  subst hact2
  subst hed2
  refine ⟨?_, rfl, rfl⟩
  show ns.map (fun note => if note.id = a.id then a else note) = ns
  calc ns.map (fun note => if note.id = a.id then a else note)
      = ns.map id := List.map_congr_left (fun n hn => if_neg (hmiss n hn))
    _ = ns := List.map_id ns

/-- Witness for claim C10: saving while the active note is absent from the
collection changes no collection entry. -/
theorem c10_save_missing_id_no_insert_witness :
    (step .save sampleDetached).notes = sampleDetached.notes ∧
    (step .save sampleDetached).activeNote = some sampleNoteB ∧
    (step .save sampleDetached).isEditing = false :=
  c10_save_missing_id_no_insert sampleDetached sampleNoteB rfl rfl (by decide)

/-! ### Claim C6 -/

/-- Claim C6: persisting a collection and loading it back reproduces it:
the slot returns exactly what was written — same number of entries in the
same order, with identical ids, titles and contents — and each stored
creation timestamp decodes back to the original millisecond value, that is,
the timestamps agree up to serialization precision. -/
theorem c6_save_load_roundtrip (ns : List Note) :
    loadSlot (some (serializeNotes ns)) = serializeNotes ns ∧
    (serializeNotes ns).length = ns.length ∧
    (serializeNotes ns).map StoredNote.id = ns.map Note.id ∧
    (serializeNotes ns).map StoredNote.title = ns.map Note.title ∧
    (serializeNotes ns).map StoredNote.content = ns.map Note.content ∧
    (serializeNotes ns).map (fun sn => decodeTimestamp sn.createdAt) =
        ns.map (fun n => some n.createdAt) := by
  refine ⟨rfl, ?_, ?_, ?_, ?_, ?_⟩ <;>
    simp [serializeNotes, serializeNote, List.map_map, Function.comp,
      decodeTimestamp_encodeTimestamp]

/-! ### Claim C7 -/

theorem step_storage_invariant (a : Action) (s : AppState)
    (ih : s.storage = some (serializeNotes s.notes)) :
    (step a s).storage = some (serializeNotes (step a s).notes) := by
  cases a with
  | create idMs createdMs => rfl
  | select n =>
      rw [stepSelect_storage, stepSelect_notes]
      exact ih
  | edit =>
      rw [show step .edit s = beginEdit s from rfl, beginEdit_storage, beginEdit_notes]
      exact ih
  | editTitle v =>
      rw [show step (.editTitle v) s = editDraftTitle v s from rfl,
        editDraftTitle_storage, editDraftTitle_notes]
      exact ih
  | editContent v =>
      rw [show step (.editContent v) s = editDraftContent v s from rfl,
        editDraftContent_storage, editDraftContent_notes]
      exact ih
  | save =>
      obtain ⟨ns, act, ed, st⟩ := s
      cases act with
      | none => cases ed <;> exact ih
      | some a =>
          cases ed with
          | false => exact ih
          | true => rfl
  | cancel =>
      rw [show step .cancel s = cancelEdit s from rfl, cancelEdit_storage, cancelEdit_notes]
      exact ih
  | delete id => rfl

/-- Claim C7: in every reachable state the storage slot holds exactly the
serialization of the current full collection: the mount effect writes the
normalizing copy of the loaded collection, every collection mutation
(create, save, delete) overwrites the whole slot with the new
serialization, and no other interaction disturbs it. -/
theorem c7_storage_holds_serialized_collection (s : AppState) (h : Reachable s) :
    s.storage = some (serializeNotes s.notes) := by
  induction h with
  | init initialNotes => rfl
  | next a h ih => exact step_storage_invariant a _ ih

/-- Witness for claim C7: the freshly mounted empty state. -/
theorem c7_storage_holds_serialized_collection_witness :
    (initState []).storage = some (serializeNotes (initState []).notes) :=
  c7_storage_holds_serialized_collection (initState []) (Reachable.init [])

/-! ### Claim C9 -/

theorem step_editing_active_invariant (a : Action) (s : AppState)
    (ih : s.isEditing = true → s.activeNote.isSome = true) :
    (step a s).isEditing = true → (step a s).activeNote.isSome = true := by
  cases a with
  | create idMs createdMs => intro _; rfl
  | select n =>
      simp only [step]
      split
      · intro _; rfl
      · exact ih
  | edit =>
      obtain ⟨ns, act, ed, st⟩ := s
      cases act with
      | none => exact ih
      | some a => intro _; rfl
  | editTitle v =>
      obtain ⟨ns, act, ed, st⟩ := s
      cases act with
      | none => cases ed <;> exact ih
      | some a =>
          cases ed with
          | false => exact ih
          | true => intro _; rfl
  | editContent v =>
      obtain ⟨ns, act, ed, st⟩ := s
      cases act with
      | none => cases ed <;> exact ih
      | some a =>
          cases ed with
          | false => exact ih
          | true => intro _; rfl
  | save =>
      obtain ⟨ns, act, ed, st⟩ := s
      cases act with
      | none => cases ed <;> exact ih
      | some a =>
          cases ed with
          | false => exact ih
          | true => intro _; rfl
  | cancel =>
      obtain ⟨ns, act, ed, st⟩ := s
      cases act with
      | none => cases ed <;> exact ih
      | some a =>
          cases ed with
          | false => exact ih
          | true => intro h; exact Bool.noConfusion h
  | delete id =>
      obtain ⟨ns, act, ed, st⟩ := s
      cases act with
      | none => exact ih
      | some a =>
          simp only [step, deleteNote, persist]
          split
          · intro h; exact Bool.noConfusion h
          · intro _; rfl

/-- Claim C9: in every state reachable from a mount by any sequence of the
user interactions, if the editing flag is on then a note is active. -/
theorem c9_editing_implies_active (s : AppState) (h : Reachable s)
    (hed : s.isEditing = true) : s.activeNote.isSome = true := by
  revert hed
  induction h with
  | init initialNotes => intro h0; exact Bool.noConfusion h0
  | next a h ih => exact step_editing_active_invariant a _ ih

/-- Witness for claim C9: the editing state right after a create on a fresh
mount. -/
theorem c9_editing_implies_active_witness :
    (step (.create 1 10) (initState [])).activeNote.isSome = true :=
  c9_editing_implies_active (step (.create 1 10) (initState []))
    (Reachable.next (.create 1 10) (Reachable.init [])) rfl

end NotesApp
